import Mathlib

/-!
Shallow embedding of `lune-std-process/src/options/mod.rs`:
the process-spawn option parser (`ProcessSpawnOptions::from_lua`) and the
command synthesizer (`ProcessSpawnOptions::into_command`).

The scripting engine's dynamic value model is embedded as the inductive
`LuaValue`; tables are association lists of key/value pairs.  The two
OS queries the parser performs (home-directory lookup, path-existence
check) and the compile-time platform family (`env::consts::FAMILY`) are
passed in explicitly as a `World` record, so the parser stays a pure
function of its inputs.
-/

namespace SpawnOptions

/-- Dynamic values of the embedded scripting engine.  Tables are modelled
as association lists of key/value pairs (keys of a real engine table are
unique; the model does not need to assume it). -/
inductive LuaValue where
  | nil : LuaValue
  | boolean : Bool → LuaValue
  | number : Int → LuaValue
  | str : String → LuaValue
  | table : List (LuaValue × LuaValue) → LuaValue

/-- `LuaValue::type_name` from the engine: the name reported in error
messages. -/
def LuaValue.typeName : LuaValue → String
  | .nil => "nil"
  | .boolean _ => "boolean"
  | .number _ => "number"
  | .str _ => "string"
  | .table _ => "table"

/-- Errors produced by parsing, mirroring the `LuaError` variants the
source constructs: `FromLuaConversionError { from, to, message }`,
`LuaError::runtime(msg)` / `LuaError::RuntimeError(msg)`, and the
`.context(msg)` wrapper applied to a failed typed conversion. -/
inductive LuaError where
  | fromLuaConversionError : String → String → Option String → LuaError
  | runtimeError : String → LuaError
  | withContext : String → LuaError → LuaError
deriving DecidableEq

/-- `table.get(key)` for a string key: first matching entry, `nil` when
absent. -/
def getField : List (LuaValue × LuaValue) → String → LuaValue
  | [], _ => .nil
  | (LuaValue.str k, v) :: rest, key => if k = key then v else getField rest key
  | _ :: rest, key => getField rest key

/-- The OS-dependent facts the parser consults: the resolved user home
directory (`UserDirs::new()` / `home_dir()`, `none` when unavailable),
path existence (`Path::exists`), and the platform family
(`env::consts::FAMILY`). -/
structure World where
  homeDir : Option String
  pathExists : String → Bool
  family : String

/-- `PathBuf::strip_prefix("~")` on the embedded string paths: succeeds
exactly when the path is the single component `~` or starts with the
component `~` followed by a separator, returning the remainder.  (A
leading `~` glued to further characters, as in `~abc`, is not the `~`
component, so it is not stripped — matching the component-wise
`strip_prefix`.) -/
def stripTilde (s : String) : Option String :=
  match s.data with
  | ['~'] => some ""
  | '~' :: '/' :: rest => some (String.mk rest)
  | _ => none

/-- `Path::join` of a base directory and a relative remainder. -/
def pathJoin (base child : String) : String :=
  if child = "" then base ++ "/" else base ++ "/" ++ child

/-- The parsed options record `ProcessSpawnOptions`.  The environment map
is an association list with insert-or-overwrite semantics standing in for
`HashMap<String, String>`; the stdio configuration is threaded through as
the raw dynamic value (see `stdioFromLua`). -/
structure ProcessSpawnOptions where
  cwd : Option String
  envs : List (String × String)
  shell : Option String
  stdio : LuaValue

/-- `ProcessSpawnOptions::default()`: no working directory, empty
environment, no shell, default stdio. -/
def ProcessSpawnOptions.default : ProcessSpawnOptions :=
  ⟨none, [], none, .nil⟩

/-- Parsing of the "cwd" field (lines 52-77 of the source): nil leaves it
unset; a string has a leading tilde component replaced by the home
directory (error when the home directory is unavailable), then must name
an existing path; any other value is a type error naming the field. -/
def parseCwd (w : World) : LuaValue → Except LuaError (Option String)
  | .nil => .ok none
  | .str s =>
    match stripTilde s with
    | some stripped =>
      match w.homeDir with
      | none =>
        .error (.runtimeError "Invalid value for option 'cwd' - failed to get home directory")
      | some home =>
        let cwd := pathJoin home stripped
        if w.pathExists cwd then .ok (some cwd)
        else .error (.runtimeError "Invalid value for option 'cwd' - path does not exist")
    | none =>
      if w.pathExists s then .ok (some s)
      else .error (.runtimeError "Invalid value for option 'cwd' - path does not exist")
  | v =>
    .error (.runtimeError
      ("Invalid type for option 'cwd' - expected string, got '" ++ v.typeName ++ "'"))

/-- The engine's typed conversion of a dynamic value to a string, as used
by `pairs::<String, String>()`; per the specification every key and value
of the environment table must be a string, so conversion succeeds exactly
on strings. -/
def luaToString : LuaValue → Except LuaError String
  | .str s => .ok s
  | v => .error (.fromLuaConversionError v.typeName "String" none)

/-- Typed conversion of one environment entry to a pair of strings. -/
def convertPair (kv : LuaValue × LuaValue) : Except LuaError (String × String) := do
  let k ← luaToString kv.1
  let v ← luaToString kv.2
  .ok (k, v)

/-- `HashMap::insert` on the association-list model: overwrite the entry
with the same key, or append a fresh entry. -/
def insertEnv : List (String × String) → String → String → List (String × String)
  | [], k, v => [(k, v)]
  | (k0, v0) :: rest, k, v =>
    if k0 = k then (k, v) :: rest else (k0, v0) :: insertEnv rest k v

/-- The loop over `e.pairs::<String, String>()` (lines 85-88 of the
source): the first entry whose key or value fails string conversion
aborts with the conversion error wrapped in the context message
"Environment variables must be strings"; successful entries are inserted
into the accumulated map. -/
def parseEnvTable : List (LuaValue × LuaValue) → List (String × String) →
    Except LuaError (List (String × String))
  | [], acc => .ok acc
  | kv :: rest, acc =>
    match convertPair kv with
    | .error e => .error (.withContext "Environment variables must be strings" e)
    | .ok (k, v) => parseEnvTable rest (insertEnv acc k v)

/-- Parsing of the "env" field (lines 82-96 of the source). -/
def parseEnv : LuaValue → Except LuaError (List (String × String))
  | .nil => .ok []
  | .table entries => parseEnvTable entries []
  | v =>
    .error (.runtimeError
      ("Invalid type for option 'env' - expected table, got '" ++ v.typeName ++ "'"))

/-- Parsing of the "shell" field (lines 104-120 of the source): a string
is used verbatim, boolean `true` selects a platform-family default
(`/bin/sh` on "unix", `powershell` on "windows", none elsewhere), and any
other non-nil value is a type error. -/
def parseShell (family : String) : LuaValue → Except LuaError (Option String)
  | .nil => .ok none
  | .str s => .ok (some s)
  | .boolean true =>
    .ok (if family = "unix" then some "/bin/sh"
         else if family = "windows" then some "powershell"
         else none)
  | v =>
    .error (.runtimeError
      ("Invalid type for option 'shell' - expected 'true' or 'string', got '" ++
        v.typeName ++ "'"))

/-- Modelled from the spec: the stdio configuration (source key "stdio")
is parsed by the separate `stdio` module, which is not part of the
sampled source; per the specification it is "delegated opaquely" and
"threaded through unchanged", so the model passes the raw value through. -/
def stdioFromLua (v : LuaValue) : LuaValue := v

/-- `ProcessSpawnOptions::from_lua` (lines 29-130 of the source): nil
yields the default record; a table has its "cwd", "env", "shell" and
"stdio" fields parsed in that order, the first failure aborting; any
other value is a conversion error naming the expected and received
types. -/
def from_lua (w : World) : LuaValue → Except LuaError ProcessSpawnOptions
  | .nil => .ok ProcessSpawnOptions.default
  | .table t => do
    let cwd ← parseCwd w (getField t "cwd")
    let envs ← parseEnv (getField t "env")
    let shell ← parseShell w.family (getField t "shell")
    let stdio := stdioFromLua (getField t "stdio")
    .ok ⟨cwd, envs, shell, stdio⟩
  | v =>
    .error (.fromLuaConversionError v.typeName "ProcessSpawnOptions"
      (some ("Invalid spawn options - expected table, got " ++ v.typeName)))

/-- The synthesized command descriptor, mirroring `async_process::Command`
as the source configures it: a program, an argument list, an optional
working directory (`current_dir`, unset unless applied), and an optional
environment overlay (`envs`: `none` when `cmd.envs` was never called, so
the launched process inherits the full environment; `some m` when the
entries of `m` are overlaid onto the inherited environment). -/
structure Command where
  program : String
  args : List String
  current_dir : Option String
  envs : Option (List (String × String))
deriving DecidableEq

/-- `Command::new(program)`: no arguments, no working directory, no
environment overlay. -/
def Command.new (program : String) : Command :=
  ⟨program, [], none, none⟩

/-- The shell command string built by lines 140-144 of the source: start
from the program and push a space followed by each argument in turn. -/
def shellCommandString (program : String) (args : List String) : String :=
  args.foldl (fun acc a => acc ++ " " ++ a) program

/-- `ProcessSpawnOptions::into_command` (lines 134-162 of the source):
when a shell is set, wrap program and arguments into `shell -c "<joined>"`;
then apply the working directory when present and the environment overlay
when non-empty. -/
def into_command (self : ProcessSpawnOptions) (program : String) (args : List String) :
    Command :=
  let pa : String × List String :=
    match self.shell with
    | some shell => (shell, ["-c", shellCommandString program args])
    | none => (program, args)
  let cmd := Command.new pa.1
  let cmd := { cmd with args := cmd.args ++ pa.2 }
  let cmd :=
    match self.cwd with
    | some c => { cmd with current_dir := some c }
    | none => cmd
  if self.envs.isEmpty then cmd else { cmd with envs := some self.envs }

/-- The space-joined command line as the specification describes it: the
program followed by the arguments with exactly one space between
consecutive elements and no escaping or quoting. -/
def spaceJoined : List String → String
  | [] => ""
  | [x] => x
  | x :: y :: rest => x ++ " " ++ spaceJoined (y :: rest)

/-! ### Helper lemmas -/

theorem spaceJoined_glue (x a : String) (rest : List String) :
    spaceJoined ((x ++ " " ++ a) :: rest) = x ++ " " ++ spaceJoined (a :: rest) := by
  cases rest with
  | nil => simp [spaceJoined]
  | cons b rs => simp [spaceJoined, String.append_assoc]

theorem shellCommandString_eq_spaceJoined (as : List String) :
    ∀ p, shellCommandString p as = spaceJoined (p :: as) := by
  induction as with
  | nil => intro p; rfl
  | cons a rest ih =>
    intro p
    show shellCommandString (p ++ " " ++ a) rest = spaceJoined (p :: a :: rest)
    rw [ih, spaceJoined_glue]
    rfl

theorem into_command_eq (cwd : Option String) (envs : List (String × String))
    (shell : Option String) (stdio : LuaValue) (p : String) (as : List String) :
    into_command ⟨cwd, envs, shell, stdio⟩ p as =
      { program := match shell with | some sh => sh | none => p
        args := match shell with
                | some _ => ["-c", shellCommandString p as]
                | none => as
        current_dir := cwd
        envs := if envs.isEmpty then none else some envs } := by
  cases shell <;> cases cwd <;> cases envs <;> rfl

/-! ### Claims -/

/-- C1: with `shellSpec` set to `s`, the synthesized command has program
`s` and exactly the two arguments `-c` and the space-joined command line
(program then arguments, one space between consecutive elements, no
escaping or quoting). -/
theorem c1_shell_wrapped_command (self : ProcessSpawnOptions) (s p : String)
    (as : List String) (hs : self.shell = some s) :
    (into_command self p as).program = s ∧
    (into_command self p as).args = ["-c", spaceJoined (p :: as)] := by
  rcases self with ⟨cwd, envs, shell, stdio⟩
  cases hs
  rw [into_command_eq]
  exact ⟨rfl, by rw [shellCommandString_eq_spaceJoined]⟩

theorem c1_shell_wrapped_command_witness :
    (into_command ⟨none, [], some "/bin/sh", LuaValue.nil⟩ "echo" ["a", "b"]).program =
      "/bin/sh" ∧
    (into_command ⟨none, [], some "/bin/sh", LuaValue.nil⟩ "echo" ["a", "b"]).args =
      ["-c", spaceJoined ["echo", "a", "b"]] :=
  c1_shell_wrapped_command ⟨none, [], some "/bin/sh", LuaValue.nil⟩ "/bin/sh" "echo"
    ["a", "b"] rfl

/-- C6: a nil configuration parses successfully to the zero-valued
options record: no working directory, empty environment, no shell,
default stdio. -/
theorem c6_nil_yields_default (w : World) :
    from_lua w .nil = .ok ⟨none, [], none, .nil⟩ := rfl

/-- C7: with `shellSpec` unset, the synthesized command carries the
program and the argument list through unchanged. -/
theorem c7_passthrough (self : ProcessSpawnOptions) (p : String) (as : List String)
    (hs : self.shell = none) :
    (into_command self p as).program = p ∧ (into_command self p as).args = as := by
  rcases self with ⟨cwd, envs, shell, stdio⟩
  cases hs
  rw [into_command_eq]
  exact ⟨rfl, rfl⟩

theorem c7_passthrough_witness :
    (into_command ⟨none, [], none, LuaValue.nil⟩ "echo" ["a", "b"]).program = "echo" ∧
    (into_command ⟨none, [], none, LuaValue.nil⟩ "echo" ["a", "b"]).args = ["a", "b"] :=
  c7_passthrough ⟨none, [], none, LuaValue.nil⟩ "echo" ["a", "b"] rfl

/-- C8: the synthesized command sets the working directory exactly when
the options carry one (otherwise it stays unset and is inherited), and
sets the environment overlay to exactly the options' entries when they
are non-empty, leaving it entirely unset (full inheritance) when they are
empty. -/
theorem c8_cwd_env_frame (self : ProcessSpawnOptions) (p : String) (as : List String) :
    (into_command self p as).current_dir = self.cwd ∧
    (into_command self p as).envs =
      (if self.envs.isEmpty then none else some self.envs) := by
  rcases self with ⟨cwd, envs, shell, stdio⟩
  rw [into_command_eq]
  exact ⟨rfl, rfl⟩

/-- C10: a configuration value that is neither nil nor a table is
rejected with a conversion error naming the expected type and the
received type. -/
theorem c10_non_table_rejected (w : World) (v : LuaValue)
    (h1 : v ≠ .nil) (h2 : ∀ t, v ≠ .table t) :
    from_lua w v =
      .error (.fromLuaConversionError v.typeName "ProcessSpawnOptions"
        (some ("Invalid spawn options - expected table, got " ++ v.typeName))) := by
  cases v with
  | nil => exact absurd rfl h1
  | table t => exact absurd rfl (h2 t)
  | boolean b => rfl
  | number n => rfl
  | str s => rfl

theorem c10_non_table_rejected_witness :
    from_lua ⟨none, fun _ => false, "unix"⟩ (.number 5) =
      .error (.fromLuaConversionError "number" "ProcessSpawnOptions"
        (some "Invalid spawn options - expected table, got number")) :=
  c10_non_table_rejected ⟨none, fun _ => false, "unix"⟩ (.number 5)
    (fun h => nomatch h) (fun _ h => nomatch h)

theorem from_lua_table_eq (w : World) (t : List (LuaValue × LuaValue)) :
    from_lua w (.table t) =
      (parseCwd w (getField t "cwd")).bind fun cwd =>
      (parseEnv (getField t "env")).bind fun envs =>
      (parseShell w.family (getField t "shell")).bind fun shell =>
      .ok ⟨cwd, envs, shell, stdioFromLua (getField t "stdio")⟩ := rfl

/-- C5: the shell field: boolean `true` yields `/bin/sh` on the "unix"
family, `powershell` on the "windows" family, and no shell (without an
error) on any other family; boolean `false` and every non-boolean,
non-string, non-nil value fail with a type error naming the field and
the accepted values. -/
theorem c5_shell_true_platform_default (fam : String) (v : LuaValue)
    (hfam1 : fam ≠ "unix") (hfam2 : fam ≠ "windows")
    (hv : (∃ n, v = LuaValue.number n) ∨ (∃ e, v = LuaValue.table e)) :
    parseShell "unix" (.boolean true) = .ok (some "/bin/sh") ∧
    parseShell "windows" (.boolean true) = .ok (some "powershell") ∧
    parseShell fam (.boolean true) = .ok none ∧
    parseShell fam (.boolean false) =
      .error (.runtimeError
        "Invalid type for option 'shell' - expected 'true' or 'string', got 'boolean'") ∧
    parseShell fam v =
      .error (.runtimeError
        ("Invalid type for option 'shell' - expected 'true' or 'string', got '" ++
          v.typeName ++ "'")) := by
  refine ⟨rfl, rfl, ?_, rfl, ?_⟩
  · simp [parseShell, hfam1, hfam2]
  · rcases hv with ⟨n, rfl⟩ | ⟨e, rfl⟩ <;> rfl

theorem c5_shell_true_platform_default_witness :
    parseShell "unix" (.boolean true) = .ok (some "/bin/sh") ∧
    parseShell "windows" (.boolean true) = .ok (some "powershell") ∧
    parseShell "wasm" (.boolean true) = .ok none ∧
    parseShell "wasm" (.boolean false) =
      .error (.runtimeError
        "Invalid type for option 'shell' - expected 'true' or 'string', got 'boolean'") ∧
    parseShell "wasm" (.number 3) =
      .error (.runtimeError
        "Invalid type for option 'shell' - expected 'true' or 'string', got 'number'") :=
  c5_shell_true_platform_default "wasm" (.number 3) (by decide) (by decide)
    (Or.inl ⟨3, rfl⟩)

/-- C3: a cwd string with a leading tilde component has the tilde
replaced by the resolved home directory (so the parsed working directory
is the home directory joined with the remainder), and when no home
directory can be resolved the parse fails with the home-directory error
instead of ignoring the marker. -/
theorem c3_tilde_expansion (w : World) (t : List (LuaValue × LuaValue)) (s st : String)
    (hget : getField t "cwd" = .str s)
    (hst : stripTilde s = some st) :
    (∀ home, w.homeDir = some home → w.pathExists (pathJoin home st) = true →
      getField t "env" = .nil → getField t "shell" = .nil →
      ∃ opts, from_lua w (.table t) = .ok opts ∧ opts.cwd = some (pathJoin home st)) ∧
    (w.homeDir = none →
      from_lua w (.table t) =
        .error (.runtimeError
          "Invalid value for option 'cwd' - failed to get home directory")) := by
  constructor
  · intro home hh hex henv hsh
    refine ⟨⟨some (pathJoin home st), [], none, stdioFromLua (getField t "stdio")⟩, ?_, rfl⟩
    rw [from_lua_table_eq, hget, henv, hsh]
    simp [parseCwd, hst, hh, hex, parseEnv, parseShell, Except.bind]
  · intro hh
    rw [from_lua_table_eq, hget]
    simp [parseCwd, hst, hh, Except.bind]

theorem c3_tilde_expansion_witness :
    ∃ opts,
      from_lua ⟨some "/home/u", fun _ => true, "unix"⟩
          (.table [(.str "cwd", .str "~/x")]) = .ok opts ∧
      opts.cwd = some (pathJoin "/home/u" "x") :=
  (c3_tilde_expansion ⟨some "/home/u", fun _ => true, "unix"⟩
    [(.str "cwd", .str "~/x")] "~/x" "x" rfl rfl).1 "/home/u" rfl rfl rfl rfl

/-- C4: for a string cwd whose tilde substitution resolved to the path
`r`, the parse (with the other fields absent) succeeds with working
directory `r` exactly when `r` exists, fails with the path-not-found
error when it does not, and a non-string, non-nil cwd value fails with a
type error naming the field and the received type. -/
theorem c4_cwd_existence (w : World) (t : List (LuaValue × LuaValue)) (s r : String)
    (hget : getField t "cwd" = .str s)
    (hres : (stripTilde s = none ∧ r = s) ∨
      (∃ st home, stripTilde s = some st ∧ w.homeDir = some home ∧
        r = pathJoin home st)) :
    ((w.pathExists r = true → getField t "env" = .nil → getField t "shell" = .nil →
        ∃ opts, from_lua w (.table t) = .ok opts ∧ opts.cwd = some r) ∧
      (w.pathExists r = false →
        from_lua w (.table t) =
          .error (.runtimeError "Invalid value for option 'cwd' - path does not exist"))) ∧
    (∀ (t2 : List (LuaValue × LuaValue)) (v : LuaValue),
      getField t2 "cwd" = v →
      ((∃ b, v = LuaValue.boolean b) ∨ (∃ n, v = LuaValue.number n) ∨
        (∃ e, v = LuaValue.table e)) →
      from_lua w (.table t2) =
        .error (.runtimeError
          ("Invalid type for option 'cwd' - expected string, got '" ++
            v.typeName ++ "'"))) := by
  have hstep : parseCwd w (.str s) =
      if w.pathExists r then .ok (some r)
      else .error (.runtimeError "Invalid value for option 'cwd' - path does not exist") := by
    rcases hres with ⟨hn, rfl⟩ | ⟨st, home, hst, hh, rfl⟩
    · simp [parseCwd, hn]
    · simp [parseCwd, hst, hh]
  refine ⟨⟨?_, ?_⟩, ?_⟩
  · intro hex henv hsh
    refine ⟨⟨some r, [], none, stdioFromLua (getField t "stdio")⟩, ?_, rfl⟩
    rw [from_lua_table_eq, hget, henv, hsh]
    simp [hstep, hex, parseEnv, parseShell, Except.bind]
  · intro hex
    rw [from_lua_table_eq, hget]
    simp [hstep, hex, Except.bind]
  · intro t2 v hget2 hv
    rw [from_lua_table_eq, hget2]
    rcases hv with ⟨b, rfl⟩ | ⟨n, rfl⟩ | ⟨e, rfl⟩ <;> rfl

theorem c4_cwd_existence_witness :
    ∃ opts,
      from_lua ⟨none, fun p => p == "/tmp", "unix"⟩
          (.table [(.str "cwd", .str "/tmp")]) = .ok opts ∧
      opts.cwd = some "/tmp" :=
  ((c4_cwd_existence ⟨none, fun p => p == "/tmp", "unix"⟩
    [(.str "cwd", .str "/tmp")] "/tmp" "/tmp" rfl (Or.inl ⟨rfl, rfl⟩)).1).1 rfl rfl rfl

theorem convertPair_ok {kv : LuaValue × LuaValue} {k v : String}
    (h : convertPair kv = .ok (k, v)) : kv.1 = .str k ∧ kv.2 = .str v := by
  rcases kv with ⟨k1, v1⟩
  cases k1 <;> cases v1 <;> simp_all [convertPair, luaToString, Except.bind, bind]

theorem insertEnv_of_not_mem (acc : List (String × String)) (k v : String)
    (h : k ∉ acc.map Prod.fst) : insertEnv acc k v = acc ++ [(k, v)] := by
  induction acc with
  | nil => rfl
  | cons p rest ih =>
    rcases p with ⟨k0, v0⟩
    have hne : k0 ≠ k := by
      intro hEq
      exact h (by simp [hEq])
    have h2 : k ∉ rest.map Prod.fst := by
      intro hk
      exact h (by simp [hk])
    simp [insertEnv, hne, ih h2]

theorem parseEnvTable_bad_entry (entries : List (LuaValue × LuaValue))
    (hbad : ∃ kv ∈ entries, (∀ x, kv.1 ≠ LuaValue.str x) ∨ (∀ x, kv.2 ≠ LuaValue.str x)) :
    ∀ acc, ∃ e, parseEnvTable entries acc =
      .error (.withContext "Environment variables must be strings" e) := by
  induction entries with
  | nil => simp at hbad
  | cons kv rest ih =>
    intro acc
    rcases hbad with ⟨kv0, hmem, hkv0⟩
    cases hconv : convertPair kv with
    | error e => exact ⟨e, by simp [parseEnvTable, hconv]⟩
    | ok p =>
      rcases p with ⟨k, v⟩
      have hstr := convertPair_ok hconv
      rcases List.mem_cons.mp hmem with rfl | hmem2
      · rcases hkv0 with hk | hv
        · exact absurd hstr.1 (hk k)
        · exact absurd hstr.2 (hv v)
      · rcases ih ⟨kv0, hmem2, hkv0⟩ (insertEnv acc k v) with ⟨e, he⟩
        exact ⟨e, by simp [parseEnvTable, hconv, he]⟩

theorem parseEnvTable_strings (ps : List (String × String)) :
    ∀ acc, (ps.map Prod.fst).Nodup →
    (∀ k ∈ ps.map Prod.fst, k ∉ acc.map Prod.fst) →
    parseEnvTable (ps.map fun p => (.str p.1, .str p.2)) acc = .ok (acc ++ ps) := by
  induction ps with
  | nil => intro acc _ _; simp [parseEnvTable]
  | cons p rest ih =>
    intro acc hnodup hdisj
    rcases p with ⟨k, v⟩
    have hk : k ∉ acc.map Prod.fst := hdisj k (by simp)
    have hstep : convertPair (LuaValue.str k, LuaValue.str v) = .ok (k, v) := rfl
    simp only [List.map_cons, parseEnvTable, hstep]
    rw [insertEnv_of_not_mem acc k v hk]
    have hnodup2 : (rest.map Prod.fst).Nodup := (List.nodup_cons.mp (by simpa using hnodup)).2
    have hknotin : k ∉ rest.map Prod.fst := (List.nodup_cons.mp (by simpa using hnodup)).1
    rw [ih (acc ++ [(k, v)]) hnodup2]
    · simp
    · intro k2 hk2
      simp only [List.map_append, List.mem_append] at *
      rintro (h1 | h2)
      · exact hdisj k2 (by simp [hk2]) (by simp [h1])
      · simp at h2
        exact hknotin (h2 ▸ hk2)

/-- C2: parsing the env field of a table: a table entry whose key or
value is not a string aborts the parse with the environment type error,
while an all-string entry list (with distinct keys, as table keys are)
parses successfully to exactly those entries. -/
theorem c2_env_entries (w : World) (t entries : List (LuaValue × LuaValue))
    (hcwd : getField t "cwd" = .nil)
    (henv : getField t "env" = .table entries) :
    ((∃ kv ∈ entries, (∀ x, kv.1 ≠ LuaValue.str x) ∨ (∀ x, kv.2 ≠ LuaValue.str x)) →
      ∃ e, from_lua w (.table t) =
        .error (.withContext "Environment variables must be strings" e)) ∧
    (∀ ps : List (String × String),
      entries = ps.map (fun p => (LuaValue.str p.1, LuaValue.str p.2)) →
      (ps.map Prod.fst).Nodup →
      getField t "shell" = .nil →
      ∃ opts, from_lua w (.table t) = .ok opts ∧ opts.envs = ps) := by
  constructor
  · intro hbad
    rcases parseEnvTable_bad_entry entries hbad [] with ⟨e, he⟩
    refine ⟨e, ?_⟩
    rw [from_lua_table_eq, hcwd, henv]
    simp [parseCwd, parseEnv, he, Except.bind]
  · intro ps hps hnodup hsh
    refine ⟨⟨none, ps, none, stdioFromLua (getField t "stdio")⟩, ?_, rfl⟩
    rw [from_lua_table_eq, hcwd, henv, hsh, hps]
    have hok := parseEnvTable_strings ps [] hnodup (by simp)
    simp [parseCwd, parseEnv, hok, parseShell, Except.bind]

theorem c2_env_entries_witness :
    (∃ opts,
      from_lua ⟨none, fun _ => false, "unix"⟩
          (.table [(.str "env",
            .table [(.str "A", .str "1"), (.str "B", .str "2")])]) = .ok opts ∧
      opts.envs = [("A", "1"), ("B", "2")]) ∧
    (∃ e,
      from_lua ⟨none, fun _ => false, "unix"⟩
          (.table [(.str "env", .table [(.str "A", .number 1)])]) =
        .error (.withContext "Environment variables must be strings" e)) :=
  ⟨(c2_env_entries ⟨none, fun _ => false, "unix"⟩
      [(.str "env", .table [(.str "A", .str "1"), (.str "B", .str "2")])]
      [(.str "A", .str "1"), (.str "B", .str "2")] rfl rfl).2
      [("A", "1"), ("B", "2")] rfl (by decide) rfl,
   (c2_env_entries ⟨none, fun _ => false, "unix"⟩
      [(.str "env", .table [(.str "A", .number 1)])]
      [(.str "A", .number 1)] rfl rfl).1
      ⟨(.str "A", .number 1), by simp, Or.inr (fun x h => nomatch h)⟩⟩

theorem parseShell_ok_inv {fam : String} {u : LuaValue} {s : String}
    (h : parseShell fam u = .ok (some s)) :
    u = .str s ∨ s = "/bin/sh" ∨ s = "powershell" := by
  cases u with
  | nil => simp [parseShell] at h
  | str s0 => simp [parseShell] at h; exact Or.inl (by rw [h])
  | boolean b =>
    cases b with
    | false => simp [parseShell] at h
    | true =>
      simp only [parseShell] at h
      by_cases h1 : fam = "unix"
      · simp [h1] at h
        exact Or.inr (Or.inl h.symm)
      · by_cases h2 : fam = "windows"
        · simp [h1, h2] at h
          exact Or.inr (Or.inr h.symm)
        · simp [h1, h2] at h
  | number n => simp [parseShell] at h
  | table e => simp [parseShell] at h

theorem from_lua_table_ok {w : World} {t : List (LuaValue × LuaValue)}
    {opts : ProcessSpawnOptions} (h : from_lua w (.table t) = .ok opts) :
    ∃ cwd envs shell,
      parseCwd w (getField t "cwd") = .ok cwd ∧
      parseEnv (getField t "env") = .ok envs ∧
      parseShell w.family (getField t "shell") = .ok shell ∧
      opts = ⟨cwd, envs, shell, stdioFromLua (getField t "stdio")⟩ := by
  rw [from_lua_table_eq] at h
  cases hc : parseCwd w (getField t "cwd") with
  | error e => rw [hc] at h; simp [Except.bind] at h
  | ok c =>
    rw [hc] at h
    cases he : parseEnv (getField t "env") with
    | error e => rw [he] at h; simp [Except.bind] at h
    | ok en =>
      rw [he] at h
      cases hsh : parseShell w.family (getField t "shell") with
      | error e => rw [hsh] at h; simp [Except.bind] at h
      | ok sh =>
        rw [hsh] at h
        simp [Except.bind] at h
        exact ⟨c, en, sh, rfl, rfl, rfl, h.symm⟩

/-- C9 counterexample: the claim that every accepted configuration has a
non-empty `shellSpec` (when present) is false: the configuration
`{shell = ""}` is accepted and yields the empty shell string. -/
theorem c9_counterexample :
    ¬ (∀ (w : World) (v : LuaValue) (opts : ProcessSpawnOptions),
        from_lua w v = .ok opts → ∀ s, opts.shell = some s → s ≠ "") := by
  intro h
  exact h ⟨none, fun _ => false, "unix"⟩ (.table [(.str "shell", .str "")])
    ⟨none, [], some "", .nil⟩ rfl "" rfl rfl

/-- C9 (amended): for every configuration the parser accepts, the
resulting `shellSpec`, if present, is either the exact string supplied
for the shell field (which may be empty) or one of the non-empty
platform defaults `/bin/sh` and `powershell`. -/
theorem c9_shell_spec_origin (w : World) (v : LuaValue)
    (opts : ProcessSpawnOptions) (s : String)
    (hok : from_lua w v = .ok opts) (hs : opts.shell = some s) :
    (∃ t, v = .table t ∧ getField t "shell" = .str s) ∨
    s = "/bin/sh" ∨ s = "powershell" := by
  cases v with
  | nil =>
    simp only [from_lua] at hok
    cases hok
    simp [ProcessSpawnOptions.default] at hs
  | boolean b => simp [from_lua] at hok
  | number n => simp [from_lua] at hok
  | str s0 => simp [from_lua] at hok
  | table t =>
    rcases from_lua_table_ok hok with ⟨cwd, envs, shell, _, _, hsh, rfl⟩
    simp only at hs
    rw [hs] at hsh
    rcases parseShell_ok_inv hsh with h1 | h2
    · exact Or.inl ⟨t, rfl, h1⟩
    · exact Or.inr h2

theorem c9_shell_spec_origin_witness :
    (∃ t, LuaValue.table [(LuaValue.str "shell", LuaValue.str "sh")] = .table t ∧
      getField t "shell" = .str "sh") ∨
    "sh" = "/bin/sh" ∨ "sh" = "powershell" :=
  c9_shell_spec_origin ⟨none, fun _ => false, "unix"⟩
    (.table [(.str "shell", .str "sh")]) ⟨none, [], some "sh", .nil⟩ "sh" rfl rfl

end SpawnOptions
